import Mathlib

/-!
Verification development for the Videomaker repository
(looped-video synthesis pipeline).

The main implementation is the Express server (`server.js`): it probes the
input video duration with ffprobe, writes a concat manifest, runs a
stream-copy loop pass, then a compose pass that muxes the looped video with
the audio track, and cleans up temp files in a `finally` block.  A second,
older port (`VideoLooper.js`) drives ffmpeg through shell command strings.
Both are embedded below; all definitions are translated from the source.
-/

namespace Videomaker

/-- Single-quote character (codepoint 39), used by ffmpeg concat file
directives. -/
def squote : String := (Char.ofNat 39).toString

/-- Double-quote character wrapped as a string. -/
def dquote : String := (Char.ofNat 34).toString

/-- Backslash character (codepoint 92). -/
def backslashChar : Char := Char.ofNat 92

/-- Forward slash character (codepoint 47). -/
def slashChar : Char := Char.ofNat 47

/-- Model of the JS `absInputVideoPath.replace(/\\/g, '/')`: every backslash
becomes a forward slash. -/
def normalizeSlashes (s : String) : String :=
  String.mk (s.data.map (fun c => if c = backslashChar then slashChar else c))

/-- Decimal digit character for a value below ten. -/
def digitChar (n : ℕ) : Char := Char.ofNat (48 + n)

/-- Fueled most-significant-first decimal digit list; structural recursion on
the fuel so the kernel can evaluate it. -/
def natDigitsAux : ℕ → ℕ → List Char
  | 0, _ => []
  | fuel + 1, n =>
    if n < 10 then [digitChar n]
    else natDigitsAux fuel (n / 10) ++ [digitChar (n % 10)]

/-- Decimal digits of a natural number, most significant first. -/
def natDigits (n : ℕ) : List Char := natDigitsAux (n + 1) n

/-- Model of JS number-to-string interpolation for a nonnegative integer
(as in `${Date.now()}` and `${code}`). -/
def natToString (n : ℕ) : String := String.mk (natDigits n)

/-- Model of JS number-to-string for an integer. -/
def intToString (n : ℤ) : String :=
  if n < 0 then "-" ++ natToString (-n).toNat else natToString n.toNat

/-- Numeric value of a digit list, used to invert `natDigits`. -/
def digitsVal (cs : List Char) : ℕ :=
  cs.foldl (fun a c => 10 * a + (c.toNat - 48)) 0

/-- Left-pad a value below 1000 to three decimal digits. -/
def pad3 (m : ℕ) : String :=
  if m < 10 then "00" ++ natToString m
  else if m < 100 then "0" ++ natToString m
  else natToString m

/-- Model of the JS `Number.prototype.toFixed(3)` on an exact rational
duration (durations in the pipeline are nonnegative): round to the nearest
thousandth (ties toward plus infinity) and print with exactly three
fractional digits.  The rounded value `⌊q * 1000 + 1 / 2⌋` is computed as an
integer division on the numerator and denominator (see `toFixed3_floor`). -/
def toFixed3 (q : ℚ) : String :=
  let n : ℤ := (2000 * q.num + (q.den : ℤ)) / (2 * (q.den : ℤ))
  intToString (n / 1000) ++ "." ++ pad3 (n % 1000).toNat

/-- Upload directory (`path.join(__dirname, 'uploads')`); the constant
`__dirname` component is omitted from the model. -/
def UPLOAD_DIR : String := "uploads"

/-- Output directory (`path.join(__dirname, 'public', 'processed')`). -/
def OUTPUT_DIR : String := "public/processed"

/-- One manifest line as written by the server loop body:
`file '<path>'` followed by a newline. -/
def fileDirective (p : String) : String :=
  "file " ++ squote ++ p ++ squote ++ "\n"

/-- Number of iterations of the JS loop `for (let i = 0; i < numLoops; ++i)`
when `numLoops` is the (possibly fractional) number `q`. -/
def loopIterations (q : ℚ) : ℕ :=
  if 0 < q then (⌈q⌉).toNat else 0

/-- Concat manifest content built by the server: the file directive for the
slash-normalized absolute video path, repeated once per loop iteration. -/
def concatFileContent (absInputVideoPath : String) (numLoops : ℚ) : String :=
  String.join
    (List.replicate (loopIterations numLoops)
      (fileDirective (normalizeSlashes absInputVideoPath)))

/-- Argument vector of the ffprobe duration probe. -/
def probeArgs (filePath : String) : List String :=
  ["-v", "error",
   "-show_entries", "format=duration",
   "-of", "default=noprint_wrappers=1:nokey=1",
   filePath]

/-- Argument vector of the loop-stage ffmpeg invocation. -/
def loopArgs (tempConcatFilePath tempLoopedVideoPath : String) : List String :=
  ["-y",
   "-f", "concat",
   "-safe", "0",
   "-i", tempConcatFilePath,
   "-an",
   "-c:v", "copy",
   tempLoopedVideoPath]

/-- Argument vector of the compose-stage ffmpeg invocation (`combineArgs` in
the server source): looped video first, audio second with `-stream_loop -1`,
explicit stream maps, video codec chosen by the full-HD flag, optional scale
filter, audio re-encode, and the `-t` duration cap. -/
def combineArgs (tempLoopedVideoPath absInputAudioPath : String)
    (totalLoopedVideoDuration : ℚ) (fullHD : Bool)
    (absOutputVideoPath : String) : List String :=
  ["-y",
   "-i", tempLoopedVideoPath,
   "-stream_loop", "-1",
   "-i", absInputAudioPath,
   "-map", "0:v:0",
   "-map", "1:a:0",
   "-c:v", if fullHD then "libx264" else "copy"] ++
  (if fullHD then
    ["-vf", "scale=1920:1080",
     "-preset", "medium",
     "-crf", "23"]
  else []) ++
  ["-c:a", "aac",
   "-b:a", "192k",
   "-t", toFixed3 totalLoopedVideoDuration,
   absOutputVideoPath]

/-- Temp concat manifest file name: `ffmpeg_concat_${Date.now()}.txt`. -/
def tempConcatName (tNow : ℕ) : String :=
  "ffmpeg_concat_" ++ natToString tNow ++ ".txt"

/-- Temp intermediate looped-video file name:
`temp_looped_video_only_${Date.now()}.mp4`. -/
def tempLoopedName (tNow : ℕ) : String :=
  "temp_looped_video_only_" ++ natToString tNow ++ ".mp4"

/-- Output file name derived in the route handler:
`looped_${originalVideoNameSanitized}_${Date.now()}.mp4`. -/
def outputFileName (sanitizedName : String) (tNow : ℕ) : String :=
  "looped_" ++ sanitizedName ++ "_" ++ natToString tNow ++ ".mp4"

/-- Longest leading run of decimal digits of a character list, with the rest. -/
def takeDigits : List Char → List Char × List Char
  | [] => ([], [])
  | c :: cs =>
    if c.isDigit then
      let p := takeDigits cs
      (c :: p.1, p.2)
    else ([], c :: cs)

/-- Parse an unsigned decimal literal prefix (`digits`, `digits.digits`,
`.digits`) as a numerator-denominator pair (the value is the fraction
`n / d`), returning the unread rest; `none` when no digit is present before
the first non-numeric character. -/
def parseUnsignedDecimal (cs : List Char) : Option (ℕ × ℕ × List Char) :=
  let ip := takeDigits cs
  match ip.2 with
  | c :: r2 =>
    if c = '.' then
      let fp := takeDigits r2
      if ip.1.isEmpty && fp.1.isEmpty then none
      else some (digitsVal ip.1 * 10 ^ fp.1.length + digitsVal fp.1,
        10 ^ fp.1.length, fp.2)
    else if ip.1.isEmpty then none else some (digitsVal ip.1, 1, c :: r2)
  | [] => if ip.1.isEmpty then none else some (digitsVal ip.1, 1, [])

/-- Apply a trailing `e`/`E` exponent part to a parsed mantissa fraction,
ignoring it when no exponent digits follow (as `parseFloat` does). -/
def applyExponent (num den : ℕ) (cs : List Char) : ℕ × ℕ :=
  match cs with
  | c :: rest =>
    if c = 'e' ∨ c = 'E' then
      let sp : Bool × List Char :=
        match rest with
        | d :: r2 =>
          if d = '+' then (true, r2)
          else if d = '-' then (false, r2)
          else (true, d :: r2)
        | [] => (true, [])
      let ds := takeDigits sp.2
      if ds.1.isEmpty then (num, den)
      else if sp.1 then (num * 10 ^ digitsVal ds.1, den)
      else (num, den * 10 ^ digitsVal ds.1)
    else (num, den)
  | [] => (num, den)

/-- Whitespace skipped by `parseFloat` (ASCII subset; the probe output only
contains spaces and line breaks). -/
def jsWhitespace (c : Char) : Bool :=
  c = ' ' ∨ c = Char.ofNat 9 ∨ c = Char.ofNat 10 ∨ c = Char.ofNat 11 ∨
    c = Char.ofNat 12 ∨ c = Char.ofNat 13

/-- Model of the JS `String.prototype.trim`: drop leading and trailing
whitespace. -/
def jsTrim (s : String) : String :=
  String.mk
    (((s.data.dropWhile (fun c => jsWhitespace c)).reverse.dropWhile
      (fun c => jsWhitespace c)).reverse)

/-- Model of the JS `parseFloat`: skip leading whitespace, read an optional
sign, then the longest decimal-literal prefix with optional exponent;
`none` models a `NaN` result.  (The `Infinity` literal is not modeled; the
probing tool emits bare decimal numbers or non-numeric text.) -/
def jsParseFloat (s : String) : Option ℚ :=
  let cs := s.data.dropWhile (fun c => jsWhitespace c)
  let sc : Bool × List Char :=
    match cs with
    | c :: r =>
      if c = '+' then (true, r)
      else if c = '-' then (false, r)
      else (true, c :: r)
    | [] => (true, [])
  match parseUnsignedDecimal sc.2 with
  | none => none
  | some (num, den, rest) =>
    let p := applyExponent num den rest
    some (mkRat (if sc.1 then (p.1 : ℤ) else -(p.1 : ℤ)) p.2)

/-- Outcome of one external process: normal exit with captured output,
non-zero exit, or a spawn error such as a missing binary. -/
inductive CmdResult where
  | ok (stdout stderr : String)
  | fail (code : ℕ) (stdout stderr : String)
  | launchErr (message : String)
deriving DecidableEq

/-- Model of a JS `Error` object as enriched by the server: the message, the
`stdout`/`stderr` fields attached by `executeCommand`, the
`ffmpegStdout`/`ffmpegStderr` fields attached by the duration probe, and the
nested `originalError`. -/
inductive JsErr where
  | mk (msg : String) (stdoutField stderrField ffmpegStdout ffmpegStderr : Option String)
      (orig : Option JsErr)

/-- Message of the error. -/
def JsErr.msg : JsErr → String
  | .mk m _ _ _ _ _ => m

/-- The `stdout` field attached by `executeCommand` on a non-zero exit. -/
def JsErr.stdoutField : JsErr → Option String
  | .mk _ so _ _ _ _ => so

/-- The `stderr` field attached by `executeCommand` on a non-zero exit. -/
def JsErr.stderrField : JsErr → Option String
  | .mk _ _ se _ _ _ => se

/-- The `ffmpegStdout` field. -/
def JsErr.ffmpegStdout : JsErr → Option String
  | .mk _ _ _ fo _ _ => fo

/-- The `ffmpegStderr` field. -/
def JsErr.ffmpegStderr : JsErr → Option String
  | .mk _ _ _ _ fe _ => fe

/-- The nested `originalError`. -/
def JsErr.orig : JsErr → Option JsErr
  | .mk _ _ _ _ _ o => o

/-- Model of the JS `a || b` on optional strings. -/
def jsOr (a b : Option String) : Option String :=
  match a with
  | some x => some x
  | none => b

/-- Error message for a non-zero exit code. -/
def cmdFailMessage (command : String) (code : ℕ) : String :=
  "Command " ++ dquote ++ command ++ dquote ++ " failed with code " ++
    natToString code ++ "."

/-- Error message for a spawn failure. -/
def launchFailMessage (command msg : String) : String :=
  "Failed to start subprocess for " ++ dquote ++ command ++ dquote ++ ": " ++
    msg ++ ". Ensure FFmpeg/ffprobe is installed and in your system" ++
    squote ++ "s PATH."

/-- Model of the server helper `executeCommand` (spawn-based): resolves with
captured stdout and stderr on exit code 0, rejects with an error carrying the
captured streams and exit code on non-zero exit, and rejects with a bare
message when the process cannot be started. -/
def executeCommand (command : String) (res : CmdResult) :
    Except JsErr (String × String) :=
  match res with
  | .ok out err => .ok (out, err)
  | .fail code out err =>
      .error (.mk (cmdFailMessage command code) (some out) (some err) none none none)
  | .launchErr m =>
      .error (.mk (launchFailMessage command m) none none none none none)

/-- Message of the invalid-duration error raised by the probe. -/
def durationParseMessage (filePath out err : String) : String :=
  "Could not parse a valid, positive video duration from ffprobe output for " ++
    filePath ++ ". stdout: " ++ dquote ++ jsTrim out ++ dquote ++ ", stderr: " ++
    dquote ++ jsTrim err ++ dquote

/-- The invalid-duration error: carries the full captured stdout and stderr
in its `ffmpegStdout`/`ffmpegStderr` fields. -/
def durationParseError (filePath out err : String) : JsErr :=
  .mk (durationParseMessage filePath out err) none none (some out) (some err) none

/-- Model of the catch-and-rethrow wrapper in `getVideoDuration`: prepends
context to the message, copies `error.stderr` (or the nested original
`stderr`) into `ffmpegStderr`, likewise for stdout, and nests the original
error. -/
def wrapProbeError (filePath : String) (e : JsErr) : JsErr :=
  .mk ("Failed to get video duration for " ++ dquote ++ filePath ++ dquote ++
        ". " ++ e.msg)
    none none
    (jsOr e.stdoutField (e.orig.bind JsErr.stdoutField))
    (jsOr e.stderrField (e.orig.bind JsErr.stderrField))
    (some e)

/-- Model of the server `getVideoDuration`: run ffprobe through
`executeCommand`, parse the trimmed stdout with `parseFloat`, reject when the
value is `NaN` or not positive, and wrap any failure with context. -/
def getVideoDuration (filePath : String) (res : CmdResult) : Except JsErr ℚ :=
  let inner : Except JsErr ℚ :=
    match executeCommand "ffprobe" res with
    | .error e => .error e
    | .ok pr =>
      match jsParseFloat (jsTrim pr.1) with
      | none => .error (durationParseError filePath pr.1 pr.2)
      | some d =>
        if d ≤ 0 then .error (durationParseError filePath pr.1 pr.2) else .ok d
  match inner with
  | .ok d => .ok d
  | .error e => .error (wrapProbeError filePath e)

/-- Observable side effects of one pipeline run: subprocess invocations, temp
file writes, temp file deletions, and deletion-failure warnings. -/
inductive Event where
  | execCmd (tool : String) (args : List String)
  | fileWrite (path : String) (content : String)
  | fileDelete (path : String)
  | warnDelete (path : String)
deriving DecidableEq

/-- Behavior of the environment for one job: which input files exist, the
outcome of each external command, whether the manifest write succeeds, and
whether each temp file deletion succeeds. -/
structure Env where
  videoExists : Bool
  audioExists : Bool
  probe : CmdResult
  writeOk : Bool
  writeErrMsg : String
  loop : CmdResult
  combine : CmdResult
  unlinkConcatOk : Bool
  unlinkLoopedOk : Bool

/-- Terminal outcome of one job: the resolved value or the thrown error. -/
inductive Outcome where
  | ok (outputPath fileName : String)
  | error (e : JsErr)

/-- Result of one run of the core pipeline: the outcome, the emitted events
in order, and whether each temp file is still on disk at the end. -/
structure RunResult where
  outcome : Outcome
  events : List Event
  concatFileOnDisk : Bool
  loopedFileOnDisk : Bool

/-- Message of the missing-video error. -/
def videoMissingMessage (p : String) : String :=
  "Input video file not found at " ++ squote ++ p ++ squote ++
    " (post-upload check)"

/-- Message of the missing-audio error. -/
def audioMissingMessage (p : String) : String :=
  "Input audio file not found at " ++ squote ++ p ++ squote ++
    " (post-upload check)"

/-- Message of the defensive loop-count check inside the core function. -/
def invalidLoopsCoreMessage : String :=
  "Number of loops must be a positive integer."

/-- A bare error with no attached streams. -/
def plainError (m : String) : JsErr := .mk m none none none none none

/-- Checks performed by the core function before its try block: both inputs
must exist and the loop count must be positive.  These throws happen before
any temp path is derived and before any subprocess runs. -/
def preflight (videoExists audioExists : Bool) (absV absA : String)
    (numLoops : ℚ) : Except JsErr Unit :=
  if videoExists = false then .error (plainError (videoMissingMessage absV))
  else if audioExists = false then .error (plainError (audioMissingMessage absA))
  else if numLoops ≤ 0 then .error (plainError invalidLoopsCoreMessage)
  else .ok ()

/-- Model of one iteration of the cleanup loop in the `finally` block: check
existence first, attempt the deletion, and on failure warn and leave the file
in place. -/
def cleanupFile (unlinkOk : Bool) (p : String) (onDisk : Bool) :
    List Event × Bool :=
  if onDisk then
    if unlinkOk then ([.fileDelete p], false)
    else ([.fileDelete p, .warnDelete p], true)
  else ([], onDisk)

/-- Model of the catch block of the core function: prepend context and copy
the ffmpeg stream fields (or the nested original stream fields). -/
def enrichErr (e : JsErr) : JsErr :=
  .mk ("Video processing failed: " ++ e.msg) none none
    (jsOr e.ffmpegStdout (e.orig.bind JsErr.stdoutField))
    (jsOr e.ffmpegStderr (e.orig.bind JsErr.stderrField))
    none

/-- Model of the try block of the core function: probe the duration, derive
`totalLoopedVideoDuration = inputVideoDuration * numLoops`, write the concat
manifest, run the loop pass, then the compose pass.  Returns the result, the
events in order, and which temp files were created. -/
def runTry (probe : CmdResult) (writeOk : Bool) (writeErrMsg : String)
    (loopRes combineRes : CmdResult)
    (absV absA absOut concatPath loopedPath outFileName : String)
    (numLoops : ℚ) (fullHD : Bool) :
    Except JsErr (String × String) × List Event × Bool × Bool :=
  let probeEv : List Event := [.execCmd "ffprobe" (probeArgs absV)]
  match getVideoDuration absV probe with
  | .error e => (.error e, probeEv, false, false)
  | .ok d =>
    let total := d * numLoops
    if writeOk then
      let evs2 := probeEv ++ [.fileWrite concatPath (concatFileContent absV numLoops)]
      let loopEv := Event.execCmd "ffmpeg" (loopArgs concatPath loopedPath)
      match executeCommand "ffmpeg" loopRes with
      | .error e => (.error e, evs2 ++ [loopEv], true, false)
      | .ok _ =>
        let combEv := Event.execCmd "ffmpeg"
          (combineArgs loopedPath absA total fullHD absOut)
        match executeCommand "ffmpeg" combineRes with
        | .error e => (.error e, evs2 ++ [loopEv, combEv], true, true)
        | .ok _ => (.ok (absOut, outFileName), evs2 ++ [loopEv, combEv], true, true)
    else (.error (plainError writeErrMsg), probeEv, false, false)

/-- Model of the core `createLoopedVideoWithAudio` of the server:
`path.resolve` is modeled as the identity (the route passes absolute upload
paths).  Pre-try validation failures propagate without cleanup (nothing was
created); any try-block failure is enriched by the catch block; the
`finally` cleanup runs the existence-checked deletion for both temp files. -/
def createLoopedVideoWithAudio (env : Env) (inputVideoPath inputAudioPath : String)
    (numLoops : ℚ) (outFileName : String) (fullHD : Bool) (tNow : ℕ) : RunResult :=
  let absV := inputVideoPath
  let absA := inputAudioPath
  let absOut := OUTPUT_DIR ++ "/" ++ outFileName
  match preflight env.videoExists env.audioExists absV absA numLoops with
  | .error e => ⟨.error e, [], false, false⟩
  | .ok _ =>
    let concatPath := UPLOAD_DIR ++ "/" ++ tempConcatName tNow
    let loopedPath := UPLOAD_DIR ++ "/" ++ tempLoopedName tNow
    let t := runTry env.probe env.writeOk env.writeErrMsg env.loop env.combine
        absV absA absOut concatPath loopedPath outFileName numLoops fullHD
    let c1 := cleanupFile env.unlinkConcatOk concatPath t.2.2.1
    let c2 := cleanupFile env.unlinkLoopedOk loopedPath t.2.2.2
    ⟨(match t.1 with
       | .ok p => Outcome.ok p.1 p.2
       | .error e => Outcome.error (enrichErr e)),
     t.2.1 ++ c1.1 ++ c2.1, c1.2, c2.2⟩

/-- HTTP responses of the `/process-video` route (the stderr excerpt appended
to the client error message is elided). -/
inductive HttpResponse where
  | okJson (downloadUrl fileName : String)
  | badRequest (message : String)
  | serverError (message : String)

/-- The route-level rejection message for an out-of-range loop count. -/
def invalidLoopsRouteMessage : String :=
  "Number of loops must be an integer between 1 and 1000."

/-- Model of the `/process-video` route handler: require both files, parse
and validate the loop count (`parseInt` giving `NaN` is modeled as `none`),
and only then run the core pipeline.  The pair also returns every pipeline
event, so a rejection with an empty event list ran no subprocess and wrote
no temp file. -/
def processVideoRoute (env : Env) (filesPresent : Bool)
    (videoPath audioPath : String) (numLoopsParsed : Option ℤ)
    (fullHD : Bool) (sanitizedName : String) (tNow : ℕ) :
    HttpResponse × List Event :=
  if filesPresent = false then
    (.badRequest "Both video and audio files are required.", [])
  else
    match numLoopsParsed with
    | none => (.badRequest invalidLoopsRouteMessage, [])
    | some n =>
      if n < 1 ∨ 1000 < n then (.badRequest invalidLoopsRouteMessage, [])
      else
        let fname := outputFileName sanitizedName tNow
        let r := createLoopedVideoWithAudio env videoPath audioPath (n : ℚ)
          fname fullHD tNow
        match r.outcome with
        | .ok _ f => (.okJson ("/processed/" ++ f) f, r.events)
        | .error e => (.serverError e.msg, r.events)

/-- Shell command string built by the `VideoLooper.js` port for its loop
pass (passed as one string to `exec`). -/
def VideoLooperJs.loopCommand (tempConcatFilePath tempLoopedVideoPath : String) :
    String :=
  "ffmpeg -y -f concat -safe 0 -i " ++ dquote ++ tempConcatFilePath ++ dquote ++
    " -an -c:v copy " ++ dquote ++ tempLoopedVideoPath ++ dquote

/-- Shell command string built by the `VideoLooper.js` port for its combine
pass (note `-shortest` and no stream loop). -/
def VideoLooperJs.combineCommand
    (tempLoopedVideoPath absInputAudioPath absOutputVideoPath : String) : String :=
  "ffmpeg -y -i " ++ dquote ++ tempLoopedVideoPath ++ dquote ++ " -i " ++
    dquote ++ absInputAudioPath ++ dquote ++
    " -map 0:v:0 -map 1:a:0 -c:v copy -c:a aac -b:a 192k -shortest " ++
    dquote ++ absOutputVideoPath ++ dquote

/-- How one external tool invocation is launched: either a tool name with a
discrete argument vector (`spawn`), or a single concatenated shell command
string (`exec` / `system`). -/
inductive Invocation where
  | argv (tool : String) (args : List String)
  | shellString (cmd : String)
deriving DecidableEq

/-- Whether an invocation passes its arguments as a discrete vector. -/
def usesArgVector : Invocation → Bool
  | .argv _ _ => true
  | .shellString _ => false

/-- The three invocations made by the server pipeline for one job. -/
def serverInvocations (absV absA concatPath loopedPath absOut : String)
    (total : ℚ) (fullHD : Bool) : List Invocation :=
  [.argv "ffprobe" (probeArgs absV),
   .argv "ffmpeg" (loopArgs concatPath loopedPath),
   .argv "ffmpeg" (combineArgs loopedPath absA total fullHD absOut)]

/-- The two invocations made by the `VideoLooper.js` port for one run. -/
def VideoLooperJs.invocations (concatPath loopedPath absA absOut : String) :
    List Invocation :=
  [.shellString (VideoLooperJs.loopCommand concatPath loopedPath),
   .shellString (VideoLooperJs.combineCommand loopedPath absA absOut)]

/-- All pipeline invocations appearing in the repository sources (server
pipeline followed by the `VideoLooper.js` port). -/
def repoInvocations (absV absA concatPath loopedPath absOut : String)
    (total : ℚ) (fullHD : Bool)
    (jsConcat jsLooped jsAudio jsOut : String) : List Invocation :=
  serverInvocations absV absA concatPath loopedPath absOut total fullHD ++
    VideoLooperJs.invocations jsConcat jsLooped jsAudio jsOut

/-- Identifying data of one job submitted to the server. -/
structure JobSpec where
  videoPath : String
  audioPath : String
  numLoops : ℚ
  fullHD : Bool
  sanitizedName : String
  startMillis : ℕ
deriving DecidableEq

/-- Concat manifest path derived for a job. -/
def jobConcatPath (j : JobSpec) : String :=
  UPLOAD_DIR ++ "/" ++ tempConcatName j.startMillis

/-- Intermediate looped-video path derived for a job. -/
def jobLoopedPath (j : JobSpec) : String :=
  UPLOAD_DIR ++ "/" ++ tempLoopedName j.startMillis

/-- Output file name derived for a job. -/
def jobOutputFileName (j : JobSpec) : String :=
  outputFileName j.sanitizedName j.startMillis

/-- Value following the first occurrence of a flag in an argument vector. -/
def flagValue (args : List String) (flag : String) : Option String :=
  match args with
  | [] => none
  | x :: rest => if x = flag then rest.head? else flagValue rest flag

/-- Modelled from the spec: the external encoder itself is not part of the
repository, so its duration behavior is taken from the spec glossary — a
stream-looped input is replayed indefinitely until the explicit
output-duration cap stops it, hence with the audio looped the output duration
is exactly the cap; without looping (the `-shortest` variant) the output ends
at the shorter of the two streams. -/
def composedOutputDuration (videoDur audioDur cap : ℚ) (audioLooped : Bool) : ℚ :=
  if audioLooped then cap else min videoDur audioDur

/-- Whether an event is an ffprobe invocation. -/
def isProbeEvent : Event → Bool
  | .execCmd tool _ => tool == "ffprobe"
  | _ => false

/-- An error object carries the captured streams either in its own
`ffmpegStdout`/`ffmpegStderr` fields or in those of its nested original
error. -/
def errCarries (e : JsErr) (out err : String) : Prop :=
  (e.ffmpegStdout = some out ∧ e.ffmpegStderr = some err) ∨
    (∃ e2, e.orig = some e2 ∧ e2.ffmpegStdout = some out ∧ e2.ffmpegStderr = some err)

/-!  Helper lemmas. -/

lemma string_data_inj {a b : String} (h : a.data = b.data) : a = b := by
  cases a
  cases b
  exact congrArg String.mk h

lemma digitChar_toNat {d : ℕ} (h : d < 10) : (digitChar d).toNat = 48 + d := by
  interval_cases d <;> rfl

lemma natDigitsAux_val : ∀ fuel n : ℕ, n < fuel →
    digitsVal (natDigitsAux fuel n) = n := by
  intro fuel
  induction fuel with
  | zero => intro n h; omega
  | succ f ih =>
    intro n h
    by_cases h10 : n < 10
    · simp [natDigitsAux, h10, digitsVal, List.foldl, digitChar_toNat h10]
    · have hd : n / 10 < n := Nat.div_lt_self (by omega) (by norm_num)
      have hf : n / 10 < f := by omega
      have hm : n % 10 < 10 := Nat.mod_lt _ (by norm_num)
      have hv := ih (n / 10) hf
      simp only [natDigitsAux, if_neg h10, digitsVal, List.foldl_append,
        List.foldl] at hv ⊢
      rw [hv, digitChar_toNat hm]
      omega

lemma natToString_inj {a b : ℕ} (h : natToString a = natToString b) : a = b := by
  have hd : natDigits a = natDigits b := congrArg String.data h
  have va := natDigitsAux_val (a + 1) a (by omega)
  have vb := natDigitsAux_val (b + 1) b (by omega)
  unfold natDigits at hd
  rw [← va, ← vb, hd]

lemma affix_nat_inj (p s : String) {a b : ℕ}
    (h : p ++ natToString a ++ s = p ++ natToString b ++ s) : a = b := by
  apply natToString_inj
  apply string_data_inj
  have hd := congrArg String.data h
  simp only [String.data_append, List.append_assoc] at hd
  have h1 := List.append_cancel_left hd
  exact List.append_cancel_right h1

lemma string_append_left_cancel {p a b : String} (h : p ++ a = p ++ b) : a = b := by
  apply string_data_inj
  have hd := congrArg String.data h
  simp only [String.data_append] at hd
  exact List.append_cancel_left hd

lemma tempConcatName_inj {a b : ℕ} (h : tempConcatName a = tempConcatName b) :
    a = b :=
  affix_nat_inj "ffmpeg_concat_" ".txt" h

lemma tempLoopedName_inj {a b : ℕ} (h : tempLoopedName a = tempLoopedName b) :
    a = b :=
  affix_nat_inj "temp_looped_video_only_" ".mp4" h

lemma digitChar_isDigit {d : ℕ} (h : d < 10) : (digitChar d).isDigit = true := by
  interval_cases d <;> decide

lemma natDigitsAux_digits : ∀ fuel n : ℕ, ∀ c ∈ natDigitsAux fuel n,
    c.isDigit = true := by
  intro fuel
  induction fuel with
  | zero =>
    intro n c hc
    simp [natDigitsAux] at hc
  | succ f ih =>
    intro n c hc
    by_cases h10 : n < 10
    · simp only [natDigitsAux, if_pos h10, List.mem_singleton] at hc
      subst hc
      exact digitChar_isDigit h10
    · simp only [natDigitsAux, if_neg h10, List.mem_append,
        List.mem_singleton] at hc
      rcases hc with hc | hc
      · exact ih _ _ hc
      · subst hc
        exact digitChar_isDigit (Nat.mod_lt _ (by norm_num))

lemma digits_marker_append_inj :
    ∀ (xs1 xs2 : List Char) (c : Char) (ys1 ys2 : List Char),
      (∀ x ∈ xs1, x.isDigit = true) → (∀ x ∈ xs2, x.isDigit = true) →
      c.isDigit = false →
      xs1 ++ c :: ys1 = xs2 ++ c :: ys2 → xs1 = xs2 := by
  intro xs1
  induction xs1 with
  | nil =>
    intro xs2 c ys1 ys2 h1 h2 hc heq
    cases xs2 with
    | nil => rfl
    | cons y rest =>
      rw [List.nil_append, List.cons_append] at heq
      injection heq with h3 h4
      have hy := h2 y (List.mem_cons_self y rest)
      rw [← h3, hc] at hy
      cases hy
  | cons x rest ih =>
    intro xs2 c ys1 ys2 h1 h2 hc heq
    cases xs2 with
    | nil =>
      rw [List.cons_append, List.nil_append] at heq
      injection heq with h3 h4
      have hx := h1 x (List.mem_cons_self x rest)
      rw [h3, hc] at hx
      cases hx
    | cons y rest2 =>
      rw [List.cons_append, List.cons_append] at heq
      injection heq with h3 h4
      subst h3
      rw [ih rest2 c ys1 ys2 (fun z hz => h1 z (List.mem_cons_of_mem _ hz))
        (fun z hz => h2 z (List.mem_cons_of_mem _ hz)) hc h4]

lemma outputFileName_timestamp_inj {s1 s2 : String} {a b : ℕ}
    (h : outputFileName s1 a = outputFileName s2 b) : a = b := by
  have hd := congrArg (fun s : String => s.data.reverse) h
  simp only [outputFileName, String.data_append, List.reverse_append] at hd
  have h1 := List.append_cancel_left hd
  rw [show ("_" : String).data.reverse = ['_'] from rfl] at h1
  simp only [List.singleton_append] at h1
  have hdig1 : ∀ x ∈ (natToString a).data.reverse, x.isDigit = true := by
    intro x hx
    exact natDigitsAux_digits _ _ x (List.mem_reverse.mp hx)
  have hdig2 : ∀ x ∈ (natToString b).data.reverse, x.isDigit = true := by
    intro x hx
    exact natDigitsAux_digits _ _ x (List.mem_reverse.mp hx)
  have hrev := digits_marker_append_inj _ _ '_' _ _ hdig1 hdig2 (by decide) h1
  apply natToString_inj
  apply string_data_inj
  exact List.reverse_injective hrev

lemma loopIterations_natCast (n : ℕ) (h : 1 ≤ n) : loopIterations (n : ℚ) = n := by
  unfold loopIterations
  rw [if_pos (by exact_mod_cast Nat.lt_of_lt_of_le Nat.zero_lt_one h),
    Int.ceil_natCast]
  simp

/-!  Claim theorems. -/

/-- C1: for every loopCount at least 1, the manifest content written for a
job consists of exactly loopCount newline-terminated lines, and every line is
the directive `file <squote><path><squote>` where the path is the absolute
input-video path with all backslashes replaced by forward slashes. -/
theorem manifest_exact_lines (absPath : String) (n : ℕ) (h1 : 1 ≤ n)
    (hnl : Char.ofNat 10 ∉ (normalizeSlashes absPath).data) :
    ∃ ls : List String,
      concatFileContent absPath (n : ℚ) =
        String.join (ls.map (fun l => l ++ "\n")) ∧
      ls.length = n ∧
      (∀ l ∈ ls, l = "file " ++ squote ++ normalizeSlashes absPath ++ squote) ∧
      (∀ l ∈ ls, Char.ofNat 10 ∉ l.data) := by
  refine ⟨List.replicate n ("file " ++ squote ++ normalizeSlashes absPath ++ squote),
    ?_, by simp, by simp, ?_⟩
  · rw [concatFileContent, loopIterations_natCast n h1, List.map_replicate]
    rfl
  · intro l hl
    rw [List.eq_of_mem_replicate hl]
    intro hmem
    simp only [String.data_append, List.mem_append] at hmem
    rcases hmem with ((hf | hs1) | hp) | hs2
    · revert hf; decide
    · revert hs1; decide
    · exact hnl hp
    · revert hs2; decide

/-- C1 witness: a concrete run, with a backslash in the input path. -/
theorem manifest_exact_lines_witness :
    1 ≤ 3 ∧
    Char.ofNat 10 ∉ (normalizeSlashes (String.mk
      ['C', ':', backslashChar, 'v', '.', 'm', 'p', '4'])).data ∧
    ∃ ls : List String,
      concatFileContent (String.mk
        ['C', ':', backslashChar, 'v', '.', 'm', 'p', '4']) ((3 : ℕ) : ℚ) =
        String.join (ls.map (fun l => l ++ "\n")) ∧
      ls.length = 3 ∧
      (∀ l ∈ ls, l = "file " ++ squote ++ normalizeSlashes (String.mk
        ['C', ':', backslashChar, 'v', '.', 'm', 'p', '4']) ++ squote) ∧
      (∀ l ∈ ls, Char.ofNat 10 ∉ l.data) :=
  ⟨by decide, by decide,
    manifest_exact_lines (String.mk ['C', ':', backslashChar, 'v', '.', 'm', 'p', '4'])
      3 (by decide) (by decide)⟩

/-- C8 (amended): two jobs whose pipeline timestamps differ never share a
derived manifest, intermediate, or output name — for any sanitized base
names, since the timestamp is the all-digit block after the last underscore
of the output name; the original claim fails when two concurrent jobs obtain
the same millisecond timestamp. -/
theorem distinct_timestamps_distinct_names (j1 j2 : JobSpec)
    (h : j1.startMillis ≠ j2.startMillis) :
    jobConcatPath j1 ≠ jobConcatPath j2 ∧
    jobLoopedPath j1 ≠ jobLoopedPath j2 ∧
    jobOutputFileName j1 ≠ jobOutputFileName j2 := by
  refine ⟨fun hc => h ?_, fun hc => h ?_, fun hc => h ?_⟩
  · exact tempConcatName_inj (string_append_left_cancel hc)
  · exact tempLoopedName_inj (string_append_left_cancel hc)
  · exact outputFileName_timestamp_inj hc

/-- C8 witness: two concrete jobs with different timestamps and different
sanitized base names, including the tricky instance where one base name plus
separator is a prefix of the digits of the other timestamp. -/
theorem distinct_timestamps_distinct_names_witness :
    (⟨"v.mp4", "a.mp3", 3, false, "clip_17", 18⟩ : JobSpec).startMillis ≠
      (⟨"v.mp4", "a.mp3", 3, false, "clip", 1718⟩ : JobSpec).startMillis ∧
    jobConcatPath ⟨"v.mp4", "a.mp3", 3, false, "clip_17", 18⟩ ≠
      jobConcatPath ⟨"v.mp4", "a.mp3", 3, false, "clip", 1718⟩ ∧
    jobOutputFileName ⟨"v.mp4", "a.mp3", 3, false, "clip_17", 18⟩ ≠
      jobOutputFileName ⟨"v.mp4", "a.mp3", 3, false, "clip", 1718⟩ :=
  ⟨by decide,
    (distinct_timestamps_distinct_names
      ⟨"v.mp4", "a.mp3", 3, false, "clip_17", 18⟩
      ⟨"v.mp4", "a.mp3", 3, false, "clip", 1718⟩ (by decide)).1,
    (distinct_timestamps_distinct_names
      ⟨"v.mp4", "a.mp3", 3, false, "clip_17", 18⟩
      ⟨"v.mp4", "a.mp3", 3, false, "clip", 1718⟩ (by decide)).2.2⟩

/-- C8 counterexample: two distinct concurrent jobs that obtain the same
`Date.now()` millisecond value derive identical manifest and intermediate
names, and (as they also share the sanitized base name) an identical output
name, refuting unconditional distinctness. -/
theorem same_millis_names_collide :
    (⟨"v.mp4", "a.mp3", 3, false, "clip", 1718000000000⟩ : JobSpec) ≠
      ⟨"w.mp4", "b.mp3", 4, true, "clip", 1718000000000⟩ ∧
    jobConcatPath ⟨"v.mp4", "a.mp3", 3, false, "clip", 1718000000000⟩ =
      jobConcatPath ⟨"w.mp4", "b.mp3", 4, true, "clip", 1718000000000⟩ ∧
    jobLoopedPath ⟨"v.mp4", "a.mp3", 3, false, "clip", 1718000000000⟩ =
      jobLoopedPath ⟨"w.mp4", "b.mp3", 4, true, "clip", 1718000000000⟩ ∧
    jobOutputFileName ⟨"v.mp4", "a.mp3", 3, false, "clip", 1718000000000⟩ =
      jobOutputFileName ⟨"w.mp4", "b.mp3", 4, true, "clip", 1718000000000⟩ :=
  ⟨by decide, rfl, rfl, rfl⟩

lemma toFixed3_floor (q : ℚ) :
    (2000 * q.num + (q.den : ℤ)) / (2 * (q.den : ℤ)) = ⌊q * 1000 + 1 / 2⌋ := by
  have hden : (q.den : ℚ) ≠ 0 := by
    exact_mod_cast (Rat.den_pos q).ne'
  have key : q * 1000 + 1 / 2 =
      ((2000 * q.num + (q.den : ℤ) : ℤ) : ℚ) / (((2 * q.den : ℕ) : ℕ) : ℚ) := by
    nth_rewrite 1 [← Rat.num_div_den q]
    push_cast
    field_simp
    ring
  rw [key, Rat.floor_intCast_div_natCast]
  congr 1

lemma dot_mem_toFixed3 (q : ℚ) : '.' ∈ (toFixed3 q).data := by
  unfold toFixed3
  simp only [String.data_append, List.mem_append]
  left; right
  decide

lemma toFixed3_ne_vf (q : ℚ) : toFixed3 q ≠ "-vf" := by
  intro h
  have hm := dot_mem_toFixed3 q
  rw [h] at hm
  revert hm
  decide

lemma streamLoopPart (loopedPath aPath outPath : String) (total : ℚ)
    (fullHD : Bool) :
    List.IsInfix ["-stream_loop", "-1", "-i", aPath]
      (combineArgs loopedPath aPath total fullHD outPath) := by
  cases fullHD
  · exact ⟨["-y", "-i", loopedPath],
      ["-map", "0:v:0", "-map", "1:a:0", "-c:v", "copy", "-c:a", "aac",
       "-b:a", "192k", "-t", toFixed3 total, outPath], rfl⟩
  · exact ⟨["-y", "-i", loopedPath],
      ["-map", "0:v:0", "-map", "1:a:0", "-c:v", "libx264", "-vf",
       "scale=1920:1080", "-preset", "medium", "-crf", "23", "-c:a", "aac",
       "-b:a", "192k", "-t", toFixed3 total, outPath], rfl⟩

lemma tCapPart (loopedPath aPath outPath : String) (total : ℚ)
    (fullHD : Bool) :
    List.IsInfix ["-t", toFixed3 total]
      (combineArgs loopedPath aPath total fullHD outPath) := by
  cases fullHD
  · exact ⟨["-y", "-i", loopedPath, "-stream_loop", "-1", "-i", aPath,
      "-map", "0:v:0", "-map", "1:a:0", "-c:v", "copy", "-c:a", "aac",
      "-b:a", "192k"], [outPath], rfl⟩
  · exact ⟨["-y", "-i", loopedPath, "-stream_loop", "-1", "-i", aPath,
      "-map", "0:v:0", "-map", "1:a:0", "-c:v", "libx264", "-vf",
      "scale=1920:1080", "-preset", "medium", "-crf", "23", "-c:a", "aac",
      "-b:a", "192k"], [outPath], rfl⟩

/-- C3: the compose-stage invocation places `-stream_loop -1` directly before
the audio input (looping it indefinitely) and caps total output duration with
`-t targetDuration`; under the spec-modelled encoder semantics the resulting
output duration equals the cap for every audio duration, shorter or longer. -/
theorem compose_loops_audio_caps_duration
    (loopedPath aPath outPath : String) (total audioDur : ℚ) (fullHD : Bool) :
    List.IsInfix ["-stream_loop", "-1", "-i", aPath]
      (combineArgs loopedPath aPath total fullHD outPath) ∧
    List.IsInfix ["-t", toFixed3 total]
      (combineArgs loopedPath aPath total fullHD outPath) ∧
    composedOutputDuration total audioDur total true = total :=
  ⟨streamLoopPart loopedPath aPath outPath total fullHD,
    tCapPart loopedPath aPath outPath total fullHD,
    by simp [composedOutputDuration]⟩

/-- C7: with the full-HD flag the compose invocation selects the `libx264`
re-encode codec for video (never stream copy) and passes the 1920x1080 scale
filter; with preserve mode the video stream is stream-copied and no scale
filter appears in the argument vector. -/
theorem resolution_mode_compose_args (v a o : String) (t : ℚ)
    (hv1 : v ≠ "-c:v") (ha1 : a ≠ "-c:v") (hv2 : v ≠ "-vf") (ha2 : a ≠ "-vf")
    (ho2 : o ≠ "-vf") :
    flagValue (combineArgs v a t true o) "-c:v" = some "libx264" ∧
    flagValue (combineArgs v a t true o) "-vf" = some "scale=1920:1080" ∧
    flagValue (combineArgs v a t true o) "-c:v" ≠ some "copy" ∧
    flagValue (combineArgs v a t false o) "-c:v" = some "copy" ∧
    "-vf" ∉ combineArgs v a t false o := by
  refine ⟨?_, ?_, ?_, ?_, ?_⟩
  · simp +decide [combineArgs, flagValue, hv1, ha1]
  · simp +decide [combineArgs, flagValue, hv2, ha2]
  · simp +decide [combineArgs, flagValue, hv1, ha1]
  · simp +decide [combineArgs, flagValue, hv1, ha1]
  · simp +decide [combineArgs, Ne.symm hv2, Ne.symm ha2, Ne.symm ho2,
      Ne.symm (toFixed3_ne_vf t)]

/-- C7 witness: concrete paths and duration. -/
theorem resolution_mode_compose_args_witness :
    flagValue (combineArgs "l.mp4" "a.mp3" 1 true "o.mp4") "-c:v" =
      some "libx264" ∧
    flagValue (combineArgs "l.mp4" "a.mp3" 1 true "o.mp4") "-vf" =
      some "scale=1920:1080" ∧
    flagValue (combineArgs "l.mp4" "a.mp3" 1 true "o.mp4") "-c:v" ≠
      some "copy" ∧
    flagValue (combineArgs "l.mp4" "a.mp3" 1 false "o.mp4") "-c:v" =
      some "copy" ∧
    "-vf" ∉ combineArgs "l.mp4" "a.mp3" 1 false "o.mp4" :=
  resolution_mode_compose_args "l.mp4" "a.mp3" "o.mp4" 1
    (by decide) (by decide) (by decide) (by decide) (by decide)

/-- C6 (amended): every external tool invocation of the server pipeline is a
tool name plus a discrete argument vector; the `VideoLooper.js` port instead
passes single concatenated shell command strings (see the counterexample). -/
theorem server_pipeline_argv (absV absA concatPath loopedPath absOut : String)
    (total : ℚ) (fullHD : Bool) :
    ∀ inv ∈ serverInvocations absV absA concatPath loopedPath absOut total fullHD,
      usesArgVector inv = true := by
  intro inv hm
  simp only [serverInvocations, List.mem_cons, List.not_mem_nil, or_false] at hm
  rcases hm with h | h | h <;> subst h <;> rfl

/-- C6 witness: the probe invocation of a concrete job. -/
theorem server_pipeline_argv_witness :
    Invocation.argv "ffprobe" (probeArgs "v.mp4") ∈
      serverInvocations "v.mp4" "a.mp3" "c.txt" "l.mp4" "o.mp4" 3 false ∧
    usesArgVector (Invocation.argv "ffprobe" (probeArgs "v.mp4")) = true :=
  ⟨by simp [serverInvocations],
    server_pipeline_argv "v.mp4" "a.mp3" "c.txt" "l.mp4" "o.mp4" 3 false
      (Invocation.argv "ffprobe" (probeArgs "v.mp4"))
      (by simp [serverInvocations])⟩

/-- C6 counterexample: the loop-stage invocation of the `VideoLooper.js` port
(at its default configuration) is one concatenated shell command string, not
a discrete argument vector, refuting the claim over all invocations in the
repository sources. -/
theorem shell_string_invocation_exists :
    Invocation.shellString (VideoLooperJs.loopCommand
        "ffmpeg_concat_list.txt" "temp_looped_video_only.mp4") ∈
      repoInvocations "input.mp4" "audio.mp3" "c.txt" "l.mp4" "o.mp4" 3 false
        "ffmpeg_concat_list.txt" "temp_looped_video_only.mp4" "audio.mp3"
        "final_looped_video_js.mp4" ∧
    usesArgVector (Invocation.shellString (VideoLooperJs.loopCommand
        "ffmpeg_concat_list.txt" "temp_looped_video_only.mp4")) = false := by
  constructor
  · simp [repoInvocations, serverInvocations, VideoLooperJs.invocations]
  · rfl

lemma getVideoDuration_parse_none (p out err : String)
    (hp : jsParseFloat (jsTrim out) = none) :
    getVideoDuration p (.ok out err) =
      .error (wrapProbeError p (durationParseError p out err)) := by
  unfold getVideoDuration executeCommand
  simp [hp]

lemma getVideoDuration_parse_nonpos (p out err : String) (d : ℚ)
    (hp : jsParseFloat (jsTrim out) = some d) (hd : d ≤ 0) :
    getVideoDuration p (.ok out err) =
      .error (wrapProbeError p (durationParseError p out err)) := by
  unfold getVideoDuration executeCommand
  simp [hp, hd]

lemma getVideoDuration_parse_pos (p out err : String) (d : ℚ)
    (hp : jsParseFloat (jsTrim out) = some d) (hd : 0 < d) :
    getVideoDuration p (.ok out err) = .ok d := by
  unfold getVideoDuration executeCommand
  simp [hp, not_le.mpr hd]

lemma getVideoDuration_fail_eq (p : String) (code : ℕ) (out err : String) :
    getVideoDuration p (.fail code out err) =
      .error (wrapProbeError p
        (.mk (cmdFailMessage "ffprobe" code) (some out) (some err) none none none)) :=
  rfl

lemma getVideoDuration_launch_eq (p m : String) :
    getVideoDuration p (.launchErr m) =
      .error (wrapProbeError p
        (.mk (launchFailMessage "ffprobe" m) none none none none none)) :=
  rfl

/-- C9: the duration probe resolves with the positive value parsed from the
trimmed stdout of a successful run, and rejects exactly when the underlying
command fails (non-zero exit or spawn error), the trimmed stdout parses to
`NaN` (empty or non-numeric), or the parsed value is not positive; the
rejection error carries the captured stderr and stdout, either in its own
stream fields or nested in its original error. -/
theorem probe_contract (p : String) (res : CmdResult) :
    (∀ d : ℚ, getVideoDuration p res = .ok d ↔
      (0 < d ∧ ∃ out err, res = CmdResult.ok out err ∧
        jsParseFloat (jsTrim out) = some d)) ∧
    (∀ code out err, res = CmdResult.fail code out err →
      ∃ e, getVideoDuration p res = .error e ∧
        e.ffmpegStdout = some out ∧ e.ffmpegStderr = some err) ∧
    (∀ m, res = CmdResult.launchErr m →
      ∃ e, getVideoDuration p res = .error e) ∧
    (∀ out err, res = CmdResult.ok out err →
      (jsParseFloat (jsTrim out) = none ∨
        ∃ d, jsParseFloat (jsTrim out) = some d ∧ d ≤ 0) →
      ∃ e, getVideoDuration p res = .error e ∧ errCarries e out err) := by
  refine ⟨?_, ?_, ?_, ?_⟩
  · intro d
    rcases res with ⟨out, err⟩ | ⟨code, out, err⟩ | m
    · cases hp : jsParseFloat (jsTrim out) with
      | none =>
        rw [getVideoDuration_parse_none p out err hp]
        simp [hp]
      | some d0 =>
        by_cases hd0 : d0 ≤ 0
        · rw [getVideoDuration_parse_nonpos p out err d0 hp hd0]
          constructor
          · intro h
            simp at h
          · rintro ⟨hdpos, o, e, ho, hparse⟩
            cases ho
            rw [hp] at hparse
            cases hparse
            exact absurd hdpos (not_lt.mpr hd0)
        · rw [getVideoDuration_parse_pos p out err d0 hp (lt_of_not_le hd0)]
          constructor
          · intro h
            cases h
            exact ⟨lt_of_not_le hd0, out, err, rfl, hp⟩
          · rintro ⟨hdpos, o, e, ho, hparse⟩
            cases ho
            rw [hp] at hparse
            cases hparse
            rfl
    · rw [getVideoDuration_fail_eq]
      simp
    · rw [getVideoDuration_launch_eq]
      simp
  · rintro code out err rfl
    exact ⟨_, getVideoDuration_fail_eq p code out err, rfl, rfl⟩
  · rintro m rfl
    exact ⟨_, getVideoDuration_launch_eq p m⟩
  · rintro out err rfl hbad
    rcases hbad with hp | ⟨d0, hp, hd0⟩
    · exact ⟨wrapProbeError p (durationParseError p out err),
        getVideoDuration_parse_none p out err hp,
        Or.inr ⟨durationParseError p out err, rfl, rfl, rfl⟩⟩
    · exact ⟨wrapProbeError p (durationParseError p out err),
        getVideoDuration_parse_nonpos p out err d0 hp hd0,
        Or.inr ⟨durationParseError p out err, rfl, rfl, rfl⟩⟩

lemma preflight_ok (v a : String) (q : ℚ) (hq : 0 < q) :
    preflight true true v a q = .ok () := by
  unfold preflight
  simp [not_le.mpr hq]

lemma cleanupFile_snd_false (p : String) (b : Bool) :
    (cleanupFile true p b).2 = false := by
  cases b <;> simp [cleanupFile]

lemma cleanupFile_warn_of_onDisk (ok : Bool) (p : String) (b : Bool)
    (h : (cleanupFile ok p b).2 = true) :
    Event.warnDelete p ∈ (cleanupFile ok p b).1 := by
  cases ok <;> cases b <;> simp [cleanupFile] at h ⊢

lemma cleanupFile_no_exec (ok : Bool) (p : String) (b : Bool) (t : String)
    (args : List String) :
    Event.execCmd t args ∉ (cleanupFile ok p b).1 := by
  cases ok <;> cases b <;> simp [cleanupFile]

lemma cleanupFile_filter_probe (ok : Bool) (p : String) (b : Bool) :
    (cleanupFile ok p b).1.filter isProbeEvent = [] := by
  cases ok <;> cases b <;> simp [cleanupFile, isProbeEvent]

lemma runTry_success_tail (pout perr wm lo le : String) (cr : CmdResult)
    (d : ℚ) (hd : jsParseFloat (jsTrim pout) = some d) (hpos : 0 < d)
    (v a absOut cP lP fn : String) (numLoops : ℚ) (fullHD : Bool) :
    (runTry (.ok pout perr) true wm (.ok lo le) cr
        v a absOut cP lP fn numLoops fullHD).2 =
      ([Event.execCmd "ffprobe" (probeArgs v),
        Event.fileWrite cP (concatFileContent v numLoops),
        Event.execCmd "ffmpeg" (loopArgs cP lP),
        Event.execCmd "ffmpeg" (combineArgs lP a (d * numLoops) fullHD absOut)],
       true, true) := by
  unfold runTry
  rw [getVideoDuration_parse_pos v pout perr d hd hpos]
  cases cr <;> simp [executeCommand]

/-- C9 witness: a concrete probe run whose stdout parses to 2.5. -/
theorem probe_contract_witness :
    getVideoDuration "v.mp4" (.ok "2.5\n" "") = .ok (mkRat 5 2) ∧
      (0 : ℚ) < mkRat 5 2 :=
  ⟨((probe_contract "v.mp4" (.ok "2.5\n" "")).1 (mkRat 5 2)).mpr
      ⟨by norm_num [Rat.mkRat_eq_divInt, Rat.divInt_eq_div], "2.5\n", "", rfl,
        by rfl⟩,
    by norm_num [Rat.mkRat_eq_divInt, Rat.divInt_eq_div]⟩

/-- C4: any loop count below 1 or above 1000 (in particular 0, -5 and 1001)
is rejected by the route with the invalid-loop-count message before the core
pipeline runs: the response is a 400 rejection and the emitted event list is
empty, so no temp file is written and no external tool is invoked. -/
theorem invalid_loop_count_rejected (env : Env) (v a sname : String)
    (fullHD : Bool) (tNow : ℕ) (n : ℤ) (hn : n < 1 ∨ 1000 < n) :
    processVideoRoute env true v a (some n) fullHD sname tNow =
      (HttpResponse.badRequest invalidLoopsRouteMessage, []) := by
  unfold processVideoRoute
  simp [hn]

/-- C4 witness: the three loop counts named by the claim, each rejected with
no events. -/
theorem invalid_loop_count_rejected_witness :
    (processVideoRoute
        ⟨true, true, .ok "2.5\n" "", true, "w", .ok "" "", .ok "" "", true, true⟩
        true "v.mp4" "a.mp3" (some 0) false "clip" 1718000000000 =
      (HttpResponse.badRequest invalidLoopsRouteMessage, [])) ∧
    (processVideoRoute
        ⟨true, true, .ok "2.5\n" "", true, "w", .ok "" "", .ok "" "", true, true⟩
        true "v.mp4" "a.mp3" (some (-5)) false "clip" 1718000000000 =
      (HttpResponse.badRequest invalidLoopsRouteMessage, [])) ∧
    (processVideoRoute
        ⟨true, true, .ok "2.5\n" "", true, "w", .ok "" "", .ok "" "", true, true⟩
        true "v.mp4" "a.mp3" (some 1001) false "clip" 1718000000000 =
      (HttpResponse.badRequest invalidLoopsRouteMessage, [])) :=
  ⟨invalid_loop_count_rejected _ "v.mp4" "a.mp3" "clip" false 1718000000000 0
      (Or.inl (by norm_num)),
    invalid_loop_count_rejected _ "v.mp4" "a.mp3" "clip" false 1718000000000 (-5)
      (Or.inl (by norm_num)),
    invalid_loop_count_rejected _ "v.mp4" "a.mp3" "clip" false 1718000000000 1001
      (Or.inr (by norm_num))⟩

/-- C5: cleanup properties of every exit path of the core function — when
both deletions succeed neither the manifest nor the intermediate file remains
on disk at the terminal state; the job outcome is identical whatever the
deletion results are (deletion failures never change success or failure); and
a temp file still on disk at the end always comes with a deletion-failure
warning event (the deletion was attempted after an existence check). -/
theorem cleanup_all_exit_paths (env : Env) (v a outName : String)
    (numLoops : ℚ) (fullHD : Bool) (tNow : ℕ) :
    (env.unlinkConcatOk = true → env.unlinkLoopedOk = true →
      (createLoopedVideoWithAudio env v a numLoops outName fullHD tNow).concatFileOnDisk = false ∧
      (createLoopedVideoWithAudio env v a numLoops outName fullHD tNow).loopedFileOnDisk = false) ∧
    (∀ b1 b2 : Bool,
      (createLoopedVideoWithAudio { env with unlinkConcatOk := b1, unlinkLoopedOk := b2 }
          v a numLoops outName fullHD tNow).outcome =
        (createLoopedVideoWithAudio env v a numLoops outName fullHD tNow).outcome) ∧
    ((createLoopedVideoWithAudio env v a numLoops outName fullHD tNow).concatFileOnDisk = true →
      Event.warnDelete (UPLOAD_DIR ++ "/" ++ tempConcatName tNow) ∈
        (createLoopedVideoWithAudio env v a numLoops outName fullHD tNow).events) ∧
    ((createLoopedVideoWithAudio env v a numLoops outName fullHD tNow).loopedFileOnDisk = true →
      Event.warnDelete (UPLOAD_DIR ++ "/" ++ tempLoopedName tNow) ∈
        (createLoopedVideoWithAudio env v a numLoops outName fullHD tNow).events) := by
  obtain ⟨ve, ae, pr, wo, wm, lr, cr, u1, u2⟩ := env
  unfold createLoopedVideoWithAudio
  cases hpf : preflight ve ae v a numLoops with
  | error e => simp [hpf]
  | ok u =>
    simp only [hpf]
    refine ⟨?_, ?_, ?_, ?_⟩
    · rintro rfl rfl
      exact ⟨cleanupFile_snd_false _ _, cleanupFile_snd_false _ _⟩
    · trivial
    · intro hOn
      exact List.mem_append_left _
        (List.mem_append_right _ (cleanupFile_warn_of_onDisk _ _ _ hOn))
    · intro hOn
      exact List.mem_append_right _ (cleanupFile_warn_of_onDisk _ _ _ hOn)

/-- C5 witness: a fully successful concrete run with succeeding deletions has
neither temp file on disk and its outcome does not depend on the deletion
flags. -/
theorem cleanup_all_exit_paths_witness :
    ((createLoopedVideoWithAudio
        ⟨true, true, .ok "2.5\n" "", true, "w", .ok "" "", .ok "" "", true, true⟩
        "v.mp4" "a.mp3" 3 "out.mp4" false 1718000000000).concatFileOnDisk = false ∧
      (createLoopedVideoWithAudio
        ⟨true, true, .ok "2.5\n" "", true, "w", .ok "" "", .ok "" "", true, true⟩
        "v.mp4" "a.mp3" 3 "out.mp4" false 1718000000000).loopedFileOnDisk = false) ∧
    (createLoopedVideoWithAudio
        ⟨true, true, .ok "2.5\n" "", true, "w", .ok "" "", .ok "" "", false, false⟩
        "v.mp4" "a.mp3" 3 "out.mp4" false 1718000000000).outcome =
      (createLoopedVideoWithAudio
        ⟨true, true, .ok "2.5\n" "", true, "w", .ok "" "", .ok "" "", true, true⟩
        "v.mp4" "a.mp3" 3 "out.mp4" false 1718000000000).outcome :=
  ⟨(cleanup_all_exit_paths
      ⟨true, true, .ok "2.5\n" "", true, "w", .ok "" "", .ok "" "", true, true⟩
      "v.mp4" "a.mp3" "out.mp4" 3 false 1718000000000).1 rfl rfl,
    (cleanup_all_exit_paths
      ⟨true, true, .ok "2.5\n" "", true, "w", .ok "" "", .ok "" "", true, true⟩
      "v.mp4" "a.mp3" "out.mp4" 3 false 1718000000000).2.1 false false⟩

lemma runTry_success_fst (pout perr wm lo le co ce : String) (d : ℚ)
    (hd : jsParseFloat (jsTrim pout) = some d) (hpos : 0 < d)
    (v a absOut cP lP fn : String) (numLoops : ℚ) (fullHD : Bool) :
    (runTry (.ok pout perr) true wm (.ok lo le) (.ok co ce)
        v a absOut cP lP fn numLoops fullHD).1 = .ok (absOut, fn) := by
  unfold runTry
  rw [getVideoDuration_parse_pos v pout perr d hd hpos]
  simp [executeCommand]

/-- C2: on a successful probe the target duration is the probed duration
times the loop count: the compose invocation recorded in the events uses
exactly `d * numLoops` and carries the cap `-t` formatted with millisecond
precision from that single value; the trace contains exactly one ffprobe
invocation and it targets the input video, never the intermediate file. -/
theorem target_duration_single_probe (env : Env) (v a outName : String)
    (numLoops : ℚ) (fullHD : Bool) (tNow : ℕ) (pout perr lo le : String)
    (d : ℚ)
    (hv : env.videoExists = true) (ha : env.audioExists = true)
    (hn : 0 < numLoops)
    (hp : env.probe = .ok pout perr)
    (hd : jsParseFloat (jsTrim pout) = some d) (hpos : 0 < d)
    (hw : env.writeOk = true)
    (hl : env.loop = .ok lo le) :
    Event.execCmd "ffmpeg"
        (combineArgs (UPLOAD_DIR ++ "/" ++ tempLoopedName tNow) a
          (d * numLoops) fullHD (OUTPUT_DIR ++ "/" ++ outName)) ∈
      (createLoopedVideoWithAudio env v a numLoops outName fullHD tNow).events ∧
    List.IsInfix ["-t", toFixed3 (d * numLoops)]
      (combineArgs (UPLOAD_DIR ++ "/" ++ tempLoopedName tNow) a
        (d * numLoops) fullHD (OUTPUT_DIR ++ "/" ++ outName)) ∧
    (∀ args, Event.execCmd "ffprobe" args ∈
        (createLoopedVideoWithAudio env v a numLoops outName fullHD tNow).events →
      args = probeArgs v) ∧
    ((createLoopedVideoWithAudio env v a numLoops outName fullHD
        tNow).events.filter isProbeEvent).length = 1 := by
  obtain ⟨ve, ae, pr, wo, wm, lr, cr, u1, u2⟩ := env
  replace hv : ve = true := hv
  replace ha : ae = true := ha
  replace hp : pr = CmdResult.ok pout perr := hp
  replace hw : wo = true := hw
  replace hl : lr = CmdResult.ok lo le := hl
  subst hv; subst ha; subst hp; subst hw; subst hl
  unfold createLoopedVideoWithAudio
  dsimp only
  rw [preflight_ok v a numLoops hn]
  have ht := runTry_success_tail pout perr wm lo le cr d hd hpos v a
    (OUTPUT_DIR ++ "/" ++ outName) (UPLOAD_DIR ++ "/" ++ tempConcatName tNow)
    (UPLOAD_DIR ++ "/" ++ tempLoopedName tNow) outName numLoops fullHD
  simp only [ht]
  refine ⟨?_, tCapPart _ _ _ _ _, ?_, ?_⟩
  · exact List.mem_append_left _ (List.mem_append_left _ (by simp))
  · intro args hmem
    simp only [List.mem_append] at hmem
    rcases hmem with (h4 | hc1) | hc2
    · simp +decide at h4
      exact h4
    · exact absurd hc1 (cleanupFile_no_exec _ _ _ _ _)
    · exact absurd hc2 (cleanupFile_no_exec _ _ _ _ _)
  · rw [List.filter_append, List.filter_append, cleanupFile_filter_probe,
      cleanupFile_filter_probe, List.append_nil, List.append_nil]
    simp +decide [List.filter, isProbeEvent]

/-- C2 witness: probed duration 2.5 with loop count 4; the cap string is
exactly `10.000`. -/
theorem target_duration_single_probe_witness :
    (∀ args, Event.execCmd "ffprobe" args ∈
        (createLoopedVideoWithAudio
          ⟨true, true, .ok "2.5\n" "", true, "w", .ok "" "", .ok "" "", true, true⟩
          "v.mp4" "a.mp3" 4 "out.mp4" false 1718000000000).events →
      args = probeArgs "v.mp4") ∧
    toFixed3 (mkRat 5 2 * 4) = "10.000" := by
  constructor
  · exact (target_duration_single_probe
      ⟨true, true, .ok "2.5\n" "", true, "w", .ok "" "", .ok "" "", true, true⟩
      "v.mp4" "a.mp3" "out.mp4" 4 false 1718000000000 "2.5\n" "" "" ""
      (mkRat 5 2) rfl rfl (by norm_num) rfl rfl
      (by norm_num [Rat.mkRat_eq_divInt, Rat.divInt_eq_div]) rfl rfl).2.2.1
  · rw [show (mkRat 5 2 * 4 : ℚ) = 10 by
      norm_num [Rat.mkRat_eq_divInt, Rat.divInt_eq_div]]
    decide

/-- C10: the core pipeline function accepts any positive loop count,
including fractional ones: for a fractional `numLoops` the run succeeds, the
manifest written contains `ceil numLoops` directive lines, while the compose
duration cap is computed from the fractional product `d * numLoops`, so the
manifest line count and the duration cap disagree (`ceil numLoops` is not
`numLoops`). -/
theorem fractional_loop_count_mismatch (env : Env) (v a outName : String)
    (q : ℚ) (fullHD : Bool) (tNow : ℕ) (pout perr lo le co ce : String)
    (d : ℚ)
    (hv : env.videoExists = true) (ha : env.audioExists = true)
    (hq : 0 < q) (hfrac : q.den ≠ 1)
    (hp : env.probe = .ok pout perr)
    (hd : jsParseFloat (jsTrim pout) = some d) (hpos : 0 < d)
    (hw : env.writeOk = true)
    (hl : env.loop = .ok lo le)
    (hc : env.combine = .ok co ce) :
    (createLoopedVideoWithAudio env v a q outName fullHD tNow).outcome =
      Outcome.ok (OUTPUT_DIR ++ "/" ++ outName) outName ∧
    Event.fileWrite (UPLOAD_DIR ++ "/" ++ tempConcatName tNow)
        (concatFileContent v q) ∈
      (createLoopedVideoWithAudio env v a q outName fullHD tNow).events ∧
    loopIterations q = (⌈q⌉).toNat ∧
    List.IsInfix ["-t", toFixed3 (d * q)]
      (combineArgs (UPLOAD_DIR ++ "/" ++ tempLoopedName tNow) a (d * q)
        fullHD (OUTPUT_DIR ++ "/" ++ outName)) ∧
    ((loopIterations q : ℕ) : ℚ) ≠ q := by
  obtain ⟨ve, ae, pr, wo, wm, lr, cr, u1, u2⟩ := env
  replace hv : ve = true := hv
  replace ha : ae = true := ha
  replace hp : pr = CmdResult.ok pout perr := hp
  replace hw : wo = true := hw
  replace hl : lr = CmdResult.ok lo le := hl
  replace hc : cr = CmdResult.ok co ce := hc
  subst hv; subst ha; subst hp; subst hw; subst hl; subst hc
  unfold createLoopedVideoWithAudio
  dsimp only
  rw [preflight_ok v a q hq]
  have ht := runTry_success_tail pout perr wm lo le (.ok co ce) d hd hpos v a
    (OUTPUT_DIR ++ "/" ++ outName) (UPLOAD_DIR ++ "/" ++ tempConcatName tNow)
    (UPLOAD_DIR ++ "/" ++ tempLoopedName tNow) outName q fullHD
  have hf := runTry_success_fst pout perr wm lo le co ce d hd hpos v a
    (OUTPUT_DIR ++ "/" ++ outName) (UPLOAD_DIR ++ "/" ++ tempConcatName tNow)
    (UPLOAD_DIR ++ "/" ++ tempLoopedName tNow) outName q fullHD
  simp only [ht, hf]
  refine ⟨trivial, ?_, ?_, tCapPart _ _ _ _ _, ?_⟩
  · exact List.mem_append_left _ (List.mem_append_left _ (by simp))
  · simp [loopIterations, hq]
  · intro heq
    apply hfrac
    rw [← heq, Rat.den_natCast]

/-- C10 witness: loop count 2.5 and probed duration 2 — the run succeeds,
the manifest has 3 lines, the cap is 5.000, and 3 is not 2.5. -/
theorem fractional_loop_count_mismatch_witness :
    (createLoopedVideoWithAudio
        ⟨true, true, .ok "2\n" "", true, "w", .ok "" "", .ok "" "", true, true⟩
        "v.mp4" "a.mp3" (mkRat 5 2) "out.mp4" false 1718000000000).outcome =
      Outcome.ok (OUTPUT_DIR ++ "/" ++ "out.mp4") "out.mp4" ∧
    loopIterations (mkRat 5 2) = 3 ∧
    toFixed3 (mkRat 2 1 * mkRat 5 2) = "5.000" ∧
    ((loopIterations (mkRat 5 2) : ℕ) : ℚ) ≠ mkRat 5 2 := by
  have h := fractional_loop_count_mismatch
    ⟨true, true, .ok "2\n" "", true, "w", .ok "" "", .ok "" "", true, true⟩
    "v.mp4" "a.mp3" "out.mp4" (mkRat 5 2) false 1718000000000
    "2\n" "" "" "" "" "" (mkRat 2 1) rfl rfl
    (by norm_num [Rat.mkRat_eq_divInt, Rat.divInt_eq_div]) (by decide)
    rfl rfl (by norm_num [Rat.mkRat_eq_divInt, Rat.divInt_eq_div]) rfl rfl rfl
  refine ⟨h.1, by decide, ?_, h.2.2.2.2⟩
  rw [show (mkRat 2 1 * mkRat 5 2 : ℚ) = 5 by
    norm_num [Rat.mkRat_eq_divInt, Rat.divInt_eq_div]]
  decide

end Videomaker
